import Mathlib

/-!
Verification of the budget-dashboard transaction pipeline.

Shallow embedding of `src/budget_dashboard/parsers/ofx_parser.py` and the
category-edit logic of `src/budget_dashboard/app.py`:

* pandas cell values that may fail `float()` conversion are `RawVal`;
* timestamps are naturals counting seconds since the Unix epoch, so the
  calendar day of a timestamp is `t / 86400` (pandas `.dt.date`) and
  `pd.to_datetime(day)` is `day * 86400`;
* monetary amounts are rationals (the code only adds, subtracts and
  compares amounts; no claim depends on binary floating-point rounding);
* a DataFrame is the list of its rows.
-/

set_option maxRecDepth 4000

namespace BudgetDashboard

/-- Does `needle` occur as a contiguous run inside the second list? -/
def containsSeq (needle : List Char) : List Char → Bool
  | [] => needle.isEmpty
  | c :: rest => needle.isPrefixOf (c :: rest) || containsSeq needle rest

/-- Python's substring test `needle in haystack`. -/
def strContains (haystack needle : String) : Bool :=
  containsSeq needle.toList haystack.toList

/-- Python `str.lower()`, modelled as per-character lowercasing. -/
def pyLower (s : String) : String :=
  String.mk (s.toList.map Char.toLower)

/-- The category table of `categorize_transaction`
(`ofx_parser.py` lines 86-101), verbatim, in declaration order. -/
def categories : List (String × List String) := [
  ("Courses", ["carrefour", "carreefour", "lidl", "aldi", "monoprix", "leclerc",
    "intermarche", "super u", "casino", "franprix", "marche", "epicerie",
    "boulangerie", "alimentation", "picard"]),
  ("Restaurants", ["restaurant", "cafe", "bar", "bistrot", "brasserie",
    "uber eats", "deliveroo", "just eat", "frichti", "traiteur"]),
  ("Transport", ["uber", "taxi", "transport", "metro", "ratp", "sncf", "bus",
    "train", "essence", "carburant", "parking", "peage", "autoroute"]),
  ("Shopping", ["amazon", "fnac", "darty", "galeries lafayette", "printemps",
    "zara", "h&m", "uniqlo", "decathlon", "vetement", "achat", "buisson",
    "mathon", "verbaudet"]),
  ("Seconde Main", ["vinted", "leboncoin"]),
  ("Loisirs", ["cinema", "film", "theatre", "billet", "concert", "netflix",
    "deezer", "abonnement", "cubicle", "steam", "epic games"]),
  ("Sante", ["pharmacie", "medecin", "docteur", "medical", "sante", "dentiste",
    "hopital", "mutuelle", "delignieres", "pharma", "dafniet", "klouche",
    "cadeau"]),
  ("Services", ["electricite", "edf", "engie", "eau", "veolia", "internet",
    "orange", "sfr", "free", "bouygues", "facture", "gimmick"]),
  ("Logement", ["loyer", "credit", "appartement", "maison", "assurance",
    "habitation", "charges", "immobilier"]),
  ("Revenus", ["salaire", "virement", "revenu", "paiement recu",
    "remboursement"]),
  ("Virements", ["virement", "retrait", "depot", "dab", "guichet"]),
  ("Voiture", ["essence", "carburant", "parking", "peage", "autoroute", "asf",
    "bain de"]),
  ("Banque", ["LCL", "cotisation", "assurance", "CACI"]),
  ("Maison", ["leroy"])]

/-- The matching loop of `categorize_transaction` (lines 104-110): first
category, in declaration order, one of whose keywords occurs in the
(already lowercased) description; `"Autre"` when none matches. -/
def matchCategory (d : String) : List (String × List String) → String
  | [] => "Autre"
  | (c, kws) :: rest =>
    if kws.any (fun k => strContains d k) then c else matchCategory d rest

/-- `categorize_transaction` (lines 73-110): lowercase the description,
then run the first-hit-wins keyword scan. -/
def categorize_transaction (description : String) : String :=
  matchCategory (pyLower description) categories

/-- Spec-side reformulation of the matching policy: the first table entry
with a matching keyword, as a `List.find?`. -/
def firstMatchingCategory (description : String) : Option String :=
  (categories.find? (fun p =>
    p.2.any (fun k => strContains (pyLower description) k))).map (fun p => p.1)

/-! ## Balance reconstruction (`get_balance_over_time`, lines 112-184) -/

/-- A pandas cell as seen by `float(...)`: either a numeric value, or one
whose conversion raises `ValueError`/`TypeError` (non-numeric text, None). -/
inductive RawVal where
  | num (q : ℚ)
  | nonNumeric (s : String)
deriving DecidableEq

/-- The value `float(v)` yields, `none` when the call raises. -/
def RawVal.toFloat? : RawVal → Option ℚ
  | .num q => some q
  | .nonNumeric _ => none

/-- One row of a transaction DataFrame, with the columns
`get_balance_over_time` and `get_spending_by_category` read.  `date` is a
timestamp in seconds; `balance` is the trailing-balance column replicated
on every row of a batch. -/
structure BTxn where
  date : ℕ
  amount : ℚ
  category : String
  balance : RawVal
deriving DecidableEq

/-- A transaction DataFrame is the list of its rows; an empty DataFrame
(as returned by a failed parse) has no rows and no columns. -/
abbrev BDf := List BTxn

def secondsPerDay : ℕ := 86400

/-- pandas `.dt.date`: the calendar day of a timestamp. -/
def dayOf (t : ℕ) : ℕ := t / secondsPerDay

/-- `.min()` over a column of naturals (0 on the empty list, a case the
callers below never reach). -/
def natMin : List ℕ → ℕ
  | [] => 0
  | [x] => x
  | x :: xs => min x (natMin xs)

/-- `.max()` over a column of naturals. -/
def natMax : List ℕ → ℕ
  | [] => 0
  | [x] => x
  | x :: xs => max x (natMax xs)

/-- `groupby(dt.date)['amount'].sum()` evaluated at one day: the sum of
the amounts of the transactions falling on that calendar day. -/
def daySum (rows : List BTxn) (d : ℕ) : ℚ :=
  ((rows.filter (fun t => dayOf t.date = d)).map (fun t => t.amount)).sum

/-- The `amount` column after the left merge of the dense range with the
daily sums (lines 174-175): a range timestamp `ts` picks up the daily sum
only when it equals `pd.to_datetime(day)` = `day * 86400` for a day that
has transactions; otherwise the merge leaves NaN, filled with 0. -/
def mergedAmount (rows : List BTxn) (ts : ℕ) : ℚ :=
  if rows.any (fun t => dayOf t.date * secondsPerDay = ts) then
    daySum rows (ts / secondsPerDay)
  else 0

/-- pandas `cumsum`: entry `i` is the sum of the first `i+1` entries. -/
def cumsum (l : List ℚ) : List ℚ :=
  (List.range l.length).map (fun i => (l.take (i + 1)).sum)

/-- The starting-balance computation (lines 139-156).  `none` models an
exception the inner handlers do not catch, which falls through to the
outer `except Exception` (the function then returns the empty frame):
reading `dfs[0]['balance'].iloc[0]` on an empty first DataFrame raises
`KeyError`/`IndexError`.  A `float()` failure on the balance cell raises
`ValueError`/`TypeError`, which the inner handler catches, falling back to
a starting balance of 0.0. -/
def startingBalance? (dfs : List BDf) (manual_balance : ℚ)
    (combined : List BTxn) : Option ℚ :=
  if manual_balance ≠ 0 then
    some (manual_balance - (combined.map (fun t => t.amount)).sum)
  else
    match dfs with
    | [] => none
    | df0 :: _ =>
      match df0 with
      | [] => none
      | r0 :: _ =>
        match r0.balance.toFloat? with
        | some b => some (b - (df0.map (fun t => t.amount)).sum)
        | none => some 0

/-- `get_balance_over_time` (lines 112-184).  The source sorts the
combined frame by date before anything else; the quantities computed from
it below (column min/max, per-day group sums) are order-invariant, so the
embedding works on the unsorted concatenation.  All failure paths that
reach the outer `except Exception` return the empty frame, i.e. `[]`. -/
def get_balance_over_time (dfs : List BDf) (manual_balance : ℚ) :
    List (ℕ × ℚ) :=
  if dfs.isEmpty || dfs.all List.isEmpty then []
  else
    let combined := dfs.flatten
    match startingBalance? dfs manual_balance combined with
    | none => []
    | some s =>
      let dates := combined.map (fun t => t.date)
      let tmin := natMin dates
      let tmax := natMax dates
      let range := (List.range ((tmax - tmin) / secondsPerDay + 1)).map
        (fun i => tmin + secondsPerDay * i)
      let amts := range.map (mergedAmount combined)
      range.zip ((cumsum amts).map (fun q => s + q))

/-- The series the specification describes: one entry per calendar day
from the earliest to the latest transaction day, each carrying the given
starting balance plus the cumulative sum of the daily amounts. -/
def denseDaily (rows : List BTxn) (s : ℚ) : List (ℕ × ℚ) :=
  let days := rows.map (fun t => dayOf t.date)
  let d0 := natMin days
  let d1 := natMax days
  (List.range (d1 - d0 + 1)).map (fun i =>
    (secondsPerDay * (d0 + i),
     s + ((List.range (i + 1)).map (fun j => daySum rows (d0 + j))).sum))

/-! ## Spending by category (`get_spending_by_category`, lines 186-228) -/

/-- `get_spending_by_category` (lines 186-228): combine the batches, keep
the strictly negative amounts, replace them by their absolute values,
group by category (pandas emits the group keys in sorted order; here they
are kept in first-occurrence order, which the final re-sort by amount
makes observable only through the unspecified tie order), sum per
category, and sort descending by summed amount. -/
def get_spending_by_category (dfs : List BDf) : List (String × ℚ) :=
  if dfs.isEmpty || dfs.all List.isEmpty then []
  else
    let combined := dfs.flatten
    let expenses := combined.filter (fun t => t.amount < 0)
    let keys := (expenses.map (fun t => t.category)).dedup
    let grouped := keys.map (fun c =>
      (c, ((expenses.filter (fun t => t.category = c)).map
            (fun t => |t.amount|)).sum))
    grouped.mergeSort (fun p q => decide (q.2 ≤ p.2))

/-! ## Archival codec (`save_transactions_to_parquet`,
`load_transactions_from_parquet`, lines 230-314) -/

/-- One row of the archival (parquet) table.  The four mandatory columns
are plain fields; the columns the loader treats as optional are `Option`s
(`none` models the column being absent from the archive).  The raw
transaction-type tag is left untouched by the loader, so it stays
optional on both sides. -/
structure PRow where
  date : ℕ
  amount : ℚ
  description : String
  category : String
  typTag : Option String
  account_id : Option String
  account_type : Option String
  balance : Option ℚ
  currency : Option String
deriving DecidableEq

/-- The parquet file: one flat table. -/
structure ParquetFile where
  rows : List PRow
deriving DecidableEq

/-- `save_transactions_to_parquet` (lines 230-264): refuse (return
`False`, i.e. `none`) when there is nothing to save, otherwise write the
concatenation of the batches.  The numeric-column coercion to float is
the identity here since amounts and balances are already rationals. -/
def save_transactions_to_parquet (dfs : List (List PRow)) :
    Option ParquetFile :=
  if dfs.isEmpty || dfs.all List.isEmpty then none
  else some ⟨dfs.flatten⟩

/-- A row as `load_transactions_from_parquet` returns it: the optional
columns have been back-filled with their fixed defaults. -/
structure LoadedRow where
  date : ℕ
  amount : ℚ
  description : String
  category : String
  typTag : Option String
  account_id : String
  account_type : String
  balance : ℚ
  currency : String
deriving DecidableEq

/-- `load_transactions_from_parquet` (lines 266-314) on a table holding
the four mandatory columns (any file written by the save path has them,
so the `MissingFieldError` branch cannot fire on a round trip): keep
`date`, `amount`, `description` and `category` as they are, and back-fill
`balance` (0.0), `account_id` ("parquet-import"), `account_type`
("checking"), `currency` ("EUR") where absent. -/
def load_transactions_from_parquet (f : ParquetFile) : List LoadedRow :=
  f.rows.map (fun r =>
    ⟨r.date, r.amount, r.description, r.category, r.typTag,
     r.account_id.getD "parquet-import", r.account_type.getD "checking",
     r.balance.getD 0, r.currency.getD "EUR"⟩)

/-- What the round-trip claim requires of one archived row and its
re-loaded image: canonical fields reproduced exactly, absent optional
fields back-filled with their fixed defaults. -/
def RoundTrips (r : PRow) (l : LoadedRow) : Prop :=
  l.date = r.date ∧ l.amount = r.amount ∧ l.description = r.description ∧
  l.category = r.category ∧
  (r.balance = none → l.balance = 0) ∧
  (r.account_id = none → l.account_id = "parquet-import") ∧
  (r.account_type = none → l.account_type = "checking") ∧
  (r.currency = none → l.currency = "EUR")

/-! ## Category editing (`app.py`, lines 684-752) -/

/-- One row of the transaction data store, with the two columns the edit
path reads and writes. -/
structure ERow where
  id : String
  category : String
deriving DecidableEq

/-- `get_available_categories` (`app.py` lines 30-37), the fixed
enumerated category set offered by the UI (the source returns it
`sorted`; the set is what matters here). -/
def AVAILABLE_CATEGORIES : List String :=
  ["Courses", "Restaurants", "Transport", "Shopping", "Seconde Main",
   "Loisirs", "Sante", "Services", "Logement", "Revenus", "Virements",
   "Voiture", "Banque", "Maison", "Autre"]

/-- `update_transaction_category_in_dfs` (`app.py` lines 731-752): walk
the held batches, and in the first one containing the target id set the
`category` of the matching rows to `new_category`; then stop.  No
membership check is made on `new_category`.  (The source's branch that
back-fills a missing `id` column invents fresh random UUIDs, which cannot
equal an existing target id; rows here always carry their id.) -/
def update_transaction_category_in_dfs (transaction_id new_category : String) :
    List (List ERow) → List (List ERow)
  | [] => []
  | df :: rest =>
    if df.any (fun r => r.id = transaction_id) then
      (df.map (fun r =>
        if r.id = transaction_id then ⟨r.id, new_category⟩ else r)) :: rest
    else
      df :: update_transaction_category_in_dfs transaction_id new_category rest

/-- The in-store part of the `update_transaction_category` callback
(`app.py` lines 710-723): find the first record with the target id in the
data-store list and overwrite its `category` with the chosen value,
unconditionally. -/
def update_transaction_category (transaction_id new_category : String) :
    List ERow → List ERow
  | [] => []
  | r :: rest =>
    if r.id = transaction_id then ⟨r.id, new_category⟩ :: rest
    else r :: update_transaction_category transaction_id new_category rest

/-! ## OFX/OFC parsing (`parse_ofx`, `parse_ofc`, lines 8-71)

The statement decoding itself is done by the external `ofxparse` library;
its outcome is a value of `Except String OfxDocument` (a parsed document,
or the exception it raised).  What lives in this repository — and what is
embedded here — is everything around that call: the extraction of the
first account, the row construction, and the `except Exception` handler
that turns every failure into an empty DataFrame. -/

structure OfxTransaction where
  date : ℕ
  amount : ℚ
  memo : String
  payee : String
  typTag : String
deriving DecidableEq

structure OfxStatement where
  transactions : List OfxTransaction
  balance : ℚ
  currency : Option String
deriving DecidableEq

structure OfxAccount where
  account_id : String
  account_type : String
  statement : OfxStatement
deriving DecidableEq

structure OfxDocument where
  accounts : List OfxAccount
deriving DecidableEq

/-- A fully populated row as `parse_ofx` produces it. -/
structure ParsedTxn where
  date : ℕ
  amount : ℚ
  description : String
  typTag : String
  category : String
  account_id : String
  account_type : String
  balance : ℚ
  currency : String
deriving DecidableEq

/-- `parse_ofx` (lines 8-50).  A decoder failure, and equally the
`IndexError` of `ofx.accounts[0]` on a document without accounts, is
swallowed by the `except Exception` handler and becomes the empty
DataFrame, i.e. `[]`.  On success every transaction line becomes one row:
`description` is the memo, falling back to the payee when the memo is
falsy (empty); the category is assigned by `categorize_transaction`; the
account fields and the trailing balance are replicated from the statement
header, with currency defaulting to `"EUR"` when absent. -/
def parse_ofx (parsed : Except String OfxDocument) : List ParsedTxn :=
  match parsed with
  | .error _ => []
  | .ok ofx =>
    match ofx.accounts with
    | [] => []
    | account :: _ =>
      account.statement.transactions.map (fun t =>
        let desc := if t.memo ≠ "" then t.memo else t.payee
        ⟨t.date, t.amount, desc, t.typTag, categorize_transaction desc,
         account.account_id, account.account_type,
         account.statement.balance,
         account.statement.currency.getD "EUR"⟩)

/-- `parse_ofc` (lines 52-71): try the OFX parser; since `parse_ofx`
already catches every exception, `parse_ofc`'s own handler (which would
return an empty DataFrame as well) is unreachable, and the result is
exactly that of `parse_ofx`. -/
def parse_ofc (parsed : Except String OfxDocument) : List ParsedTxn :=
  parse_ofx parsed

/-! ## Helper lemmas: balance reconstruction -/

lemma natMin_map_mul (k : ℕ) :
    ∀ l : List ℕ, natMin (l.map (fun d => k * d)) = k * natMin l
  | [] => by simp [natMin]
  | [x] => by simp [natMin]
  | x :: y :: ys => by
    have ih := natMin_map_mul k (y :: ys)
    show min (k * x) (natMin ((y :: ys).map (fun d => k * d))) =
      k * min x (natMin (y :: ys))
    rw [ih, Nat.mul_min_mul_left]

lemma natMax_map_mul (k : ℕ) :
    ∀ l : List ℕ, natMax (l.map (fun d => k * d)) = k * natMax l
  | [] => by simp [natMax]
  | [x] => by simp [natMax]
  | x :: y :: ys => by
    have ih := natMax_map_mul k (y :: ys)
    show max (k * x) (natMax ((y :: ys).map (fun d => k * d))) =
      k * max x (natMax (y :: ys))
    rw [ih, Nat.mul_max_mul_left]

lemma flatten_guard_false {α : Type} (dfs : List (List α))
    (hne : dfs.flatten ≠ []) :
    (dfs.isEmpty || dfs.all List.isEmpty) = false := by
  cases hall : dfs.all List.isEmpty with
  | true =>
    exact absurd (List.flatten_eq_nil_iff.mpr (fun l hl =>
      List.isEmpty_iff.mp (List.all_eq_true.mp hall l hl))) hne
  | false =>
    cases dfs with
    | nil => exact absurd rfl hne
    | cons df rest => simp

lemma mergedAmount_day (rows : List BTxn) (d : ℕ) :
    mergedAmount rows (secondsPerDay * d) = daySum rows d := by
  rw [mergedAmount]
  have hdiv : secondsPerDay * d / secondsPerDay = d :=
    Nat.mul_div_cancel_left d (by norm_num [secondsPerDay])
  by_cases h : rows.any
      (fun t => dayOf t.date * secondsPerDay = secondsPerDay * d) = true
  · rw [if_pos h, hdiv]
  · rw [if_neg h, daySum]
    have hno : ∀ t ∈ rows, ¬ dayOf t.date = d := by
      intro t ht hd
      exact h (List.any_eq_true.mpr ⟨t, ht,
        decide_eq_true (by rw [hd, Nat.mul_comm])⟩)
    rw [List.filter_eq_nil_iff.mpr (fun t ht => by
      simpa using hno t ht)]
    rfl

lemma cumsum_map_range (f : ℕ → ℚ) (n : ℕ) :
    cumsum ((List.range n).map f) =
      (List.range n).map (fun i => ((List.range (i + 1)).map f).sum) := by
  rw [cumsum, List.length_map, List.length_range]
  apply List.map_congr_left
  intro i hi
  rw [List.mem_range] at hi
  rw [← List.map_take, List.take_range, Nat.min_eq_left (by omega)]

/-- When the guard and starting-balance steps of `get_balance_over_time`
go through and every transaction timestamp is midnight-aligned, the
output is exactly the calendar-day dense series of the specification. -/
lemma get_balance_eq_dense (dfs : List BDf) (m s : ℚ)
    (hstart : startingBalance? dfs m dfs.flatten = some s)
    (hne : dfs.flatten ≠ [])
    (hmid : ∀ t ∈ dfs.flatten, t.date % secondsPerDay = 0) :
    get_balance_over_time dfs m = denseDaily dfs.flatten s := by
  have hdates : dfs.flatten.map (fun t => t.date) =
      (dfs.flatten.map (fun t => dayOf t.date)).map
        (fun d => secondsPerDay * d) := by
    rw [List.map_map]
    refine List.map_congr_left (fun t ht => ?_)
    exact (Nat.mul_div_cancel'
      (Nat.dvd_of_mod_eq_zero (hmid t ht))).symm
  have hmin : natMin (dfs.flatten.map (fun t => t.date)) =
      secondsPerDay * natMin (dfs.flatten.map (fun t => dayOf t.date)) := by
    rw [hdates, natMin_map_mul]
  have hmax : natMax (dfs.flatten.map (fun t => t.date)) =
      secondsPerDay * natMax (dfs.flatten.map (fun t => dayOf t.date)) := by
    rw [hdates, natMax_map_mul]
  simp only [get_balance_over_time, flatten_guard_false dfs hne,
    Bool.false_eq_true, if_false, hstart]
  simp only [denseDaily]
  set d0 := natMin (dfs.flatten.map (fun t => dayOf t.date)) with hd0
  set d1 := natMax (dfs.flatten.map (fun t => dayOf t.date)) with hd1
  have hcount : (natMax (dfs.flatten.map (fun t => t.date)) -
      natMin (dfs.flatten.map (fun t => t.date))) / secondsPerDay + 1 =
      d1 - d0 + 1 := by
    rw [hmin, hmax]
    have hsub : secondsPerDay * d1 - secondsPerDay * d0 =
        secondsPerDay * (d1 - d0) := by
      simp only [secondsPerDay]
      omega
    rw [hsub, Nat.mul_div_cancel_left _ (by norm_num [secondsPerDay])]
  rw [hcount]
  have hrange : (List.range (d1 - d0 + 1)).map
      (fun i => natMin (dfs.flatten.map (fun t => t.date)) +
        secondsPerDay * i) =
      (List.range (d1 - d0 + 1)).map (fun i => secondsPerDay * (d0 + i)) := by
    refine List.map_congr_left (fun i _ => ?_)
    rw [hmin, Nat.mul_add]
  rw [hrange, List.map_map]
  have hamts : (List.range (d1 - d0 + 1)).map
      (mergedAmount dfs.flatten ∘ fun i => secondsPerDay * (d0 + i)) =
      (List.range (d1 - d0 + 1)).map
        (fun i => daySum dfs.flatten (d0 + i)) := by
    refine List.map_congr_left (fun i _ => ?_)
    exact mergedAmount_day dfs.flatten (d0 + i)
  rw [hamts, cumsum_map_range, List.map_map, List.zip_map']
  rfl

/-! ## Claim theorems: balance reconstruction -/

/-- C1: with a supplied non-zero anchor balance, the reconstructor uses
`starting_balance = anchor - sum(all amounts)` and produces the dense
calendar-day series whose balances are the starting balance plus the
cumulative daily sums (transaction dates at day granularity, i.e.
midnight timestamps, as in the claim's examples). -/
theorem balance_with_anchor (dfs : List BDf) (anchor : ℚ)
    (hanchor : anchor ≠ 0) (hne : dfs.flatten ≠ [])
    (hmid : ∀ t ∈ dfs.flatten, t.date % secondsPerDay = 0) :
    get_balance_over_time dfs anchor =
      denseDaily dfs.flatten
        (anchor - (dfs.flatten.map (fun t => t.amount)).sum) := by
  apply get_balance_eq_dense _ _ _ _ hne hmid
  unfold startingBalance?
  rw [if_pos hanchor]

/-- Witness for C1, the claim's own example: transactions −50 on
2024-01-01 and +100 on 2024-01-03 with anchor 500 give starting balance
450 and daily balances 400, 400, 500. -/
theorem balance_with_anchor_witness :
    get_balance_over_time
      [[⟨1704067200, -50, "Autre", RawVal.num 200⟩,
        ⟨1704240000, 100, "Revenus", RawVal.num 200⟩]] 500 =
      [(1704067200, 400), (1704153600, 400), (1704240000, 500)] := by
  rw [balance_with_anchor _ _ (by norm_num) (by simp)
    (by intro t ht; fin_cases ht <;> decide)]
  simp [denseDaily, daySum, dayOf, natMin, natMax, secondsPerDay,
    List.range_succ]
  norm_num

/-- C2: with no anchor balance, the reconstructor takes the first batch's
trailing balance minus the first batch's own transaction total as the
starting balance, then produces the dense calendar-day series. -/
theorem balance_from_first_file (r0 : BTxn) (rows : List BTxn)
    (rest : List BDf) (b : ℚ) (hb : r0.balance = RawVal.num b)
    (hmid : ∀ t ∈ ((r0 :: rows) :: rest).flatten,
      t.date % secondsPerDay = 0) :
    get_balance_over_time ((r0 :: rows) :: rest) 0 =
      denseDaily ((r0 :: rows) :: rest).flatten
        (b - ((r0 :: rows).map (fun t => t.amount)).sum) := by
  apply get_balance_eq_dense _ _ _ _ (by simp) hmid
  unfold startingBalance?
  rw [if_neg (by simp)]
  simp [hb, RawVal.toFloat?]

/-- Witness for C2, the claim's own example: transactions −50 on
2024-01-01 and +100 on 2024-01-03, no anchor, trailing balance 200 on the
batch: starting balance 150 and the three daily balances 100, 100, 200. -/
theorem balance_from_first_file_witness :
    get_balance_over_time
      [[⟨1704067200, -50, "Autre", RawVal.num 200⟩,
        ⟨1704240000, 100, "Revenus", RawVal.num 200⟩]] 0 =
      [(1704067200, 100), (1704153600, 100), (1704240000, 200)] := by
  rw [balance_from_first_file ⟨1704067200, -50, "Autre", RawVal.num 200⟩
    [⟨1704240000, 100, "Revenus", RawVal.num 200⟩] [] 200 rfl
    (by intro t ht; fin_cases ht <;> decide)]
  simp [denseDaily, daySum, dayOf, natMin, natMax, secondsPerDay,
    List.range_succ]
  norm_num

/-- C3 (violated by the code): with non-midnight timestamps — here −50 at
2024-01-01 23:00 and +100 at 2024-01-03 01:00 — the series has only 2
entries anchored at the 23:00 stamp instead of one entry per calendar day
(`(max_date - min_date).days + 1 = 3`), and no daily sum merges onto the
range (both balances stay at the starting balance 150 instead of picking
up the −50 and +100). -/
theorem nonmidnight_range_bug :
    get_balance_over_time
      [[⟨1704150000, -50, "Autre", RawVal.num 200⟩,
        ⟨1704243600, 100, "Revenus", RawVal.num 200⟩]] 0 =
      [(1704150000, 150), (1704236400, 150)] ∧
    dayOf 1704243600 - dayOf 1704150000 + 1 = 3 := by
  constructor
  · simp [get_balance_over_time, startingBalance?, RawVal.toFloat?, natMin,
      natMax, cumsum, mergedAmount, daySum, dayOf, secondsPerDay,
      List.range_succ]
    norm_num
  · decide

/-- C9: when the first batch is non-empty but its balance cell cannot be
converted by `float()` (a `ValueError`/`TypeError`), the reconstructor
falls back to a starting balance of 0.0 and still produces the full dense
daily series — a non-empty result — instead of propagating the error. -/
theorem balance_fallback_zero (r0 : BTxn) (rows : List BTxn)
    (rest : List BDf) (serr : String)
    (hb : r0.balance = RawVal.nonNumeric serr)
    (hmid : ∀ t ∈ ((r0 :: rows) :: rest).flatten,
      t.date % secondsPerDay = 0) :
    get_balance_over_time ((r0 :: rows) :: rest) 0 =
      denseDaily ((r0 :: rows) :: rest).flatten 0 ∧
    get_balance_over_time ((r0 :: rows) :: rest) 0 ≠ [] := by
  have hmain : get_balance_over_time ((r0 :: rows) :: rest) 0 =
      denseDaily ((r0 :: rows) :: rest).flatten 0 := by
    apply get_balance_eq_dense _ _ _ _ (by simp) hmid
    unfold startingBalance?
    rw [if_neg (by simp)]
    simp [hb, RawVal.toFloat?]
  refine ⟨hmain, ?_⟩
  rw [hmain]
  simp [denseDaily]

/-- Witness for C9: a batch whose balance cell is the non-numeric text
"N/A" still yields the full series, computed from a 0.0 starting
balance. -/
theorem balance_fallback_zero_witness :
    get_balance_over_time
      [[⟨1704067200, -50, "Autre", RawVal.nonNumeric "N/A"⟩,
        ⟨1704240000, 100, "Revenus", RawVal.nonNumeric "N/A"⟩]] 0 =
      [(1704067200, -50), (1704153600, -50), (1704240000, 50)] := by
  rw [(balance_fallback_zero ⟨1704067200, -50, "Autre", RawVal.nonNumeric "N/A"⟩
    [⟨1704240000, 100, "Revenus", RawVal.nonNumeric "N/A"⟩] [] "N/A" rfl
    (by intro t ht; fin_cases ht <;> decide)).1]
  simp [denseDaily, daySum, dayOf, natMin, natMax, secondsPerDay,
    List.range_succ]
  norm_num

/-! ## Helper lemmas: categorization -/

lemma matchCategory_eq_find (d : String) :
    ∀ l : List (String × List String),
      matchCategory d l =
        ((l.find? (fun p => p.2.any (fun k => strContains d k))).map
          (fun p => p.1)).getD "Autre"
  | [] => rfl
  | (c, kws) :: rest => by
    by_cases h : kws.any (fun k => strContains d k) = true
    · simp [matchCategory, h, List.find?_cons_of_pos]
    · rw [matchCategory, if_neg (by simp [h]), matchCategory_eq_find d rest,
        List.find?_cons_of_neg]
      simp [h]

lemma toLower_of_whitespace (c : Char) (h : c.isWhitespace = true) :
    c.toLower = c := by
  simp [Char.isWhitespace] at h
  rcases h with ((h | h) | h) | h <;> subst h <;> decide

lemma containsSeq_mem (n : List Char) :
    ∀ h : List Char, containsSeq n h = true → ∀ a ∈ n, a ∈ h
  | [], hc, a, ha => by
    simp [containsSeq, List.isEmpty_iff] at hc
    subst hc
    simp at ha
  | c :: rest, hc, a, ha => by
    rw [containsSeq, Bool.or_eq_true] at hc
    rcases hc with hp | hrec
    · exact (List.isPrefixOf_iff_prefix.mp hp).subset ha
    · exact List.mem_cons_of_mem _ (containsSeq_mem n rest hrec a ha)

/-- Every keyword of the category table contains a non-whitespace
character (so no keyword can occur inside a whitespace-only text). -/
lemma keywords_have_ink :
    (categories.all (fun p => p.2.all (fun k =>
      k.toList.any (fun c => !c.isWhitespace)))) = true := by decide

lemma categorize_whitespace (description : String)
    (h : description.toList.all Char.isWhitespace = true) :
    categorize_transaction description = "Autre" := by
  have hlow : ∀ a ∈ (pyLower description).toList, a.isWhitespace = true := by
    intro a ha
    have hrepr : (pyLower description).toList =
        description.toList.map Char.toLower := rfl
    rw [hrepr] at ha
    obtain ⟨b, hb, rfl⟩ := List.mem_map.mp ha
    have hbw := List.all_eq_true.mp h b hb
    rw [toLower_of_whitespace b hbw]
    exact hbw
  rw [categorize_transaction, matchCategory_eq_find]
  have hnone : categories.find? (fun p =>
      p.2.any (fun k => strContains (pyLower description) k)) = none := by
    rw [List.find?_eq_none]
    intro p hp
    simp only [Bool.not_eq_true, List.any_eq_false]
    intro k hk
    by_contra hcon
    simp only [Bool.not_eq_false] at hcon
    have hink := List.all_eq_true.mp
      (List.all_eq_true.mp keywords_have_ink p hp) k hk
    obtain ⟨c0, hc0k, hc0w⟩ := List.any_eq_true.mp hink
    have hc0mem := containsSeq_mem k.toList _ hcon c0 hc0k
    rw [hlow c0 hc0mem] at hc0w
    simp at hc0w
  rw [hnone]
  rfl

/-! ## Claim theorems: categorization -/

/-- C4: categorization scans the categories in declared order and returns
the first one owning a keyword that is a substring of the lowercased
description (first hit wins); when nothing matches — in particular for an
empty or whitespace-only description — it returns the fallback
`"Autre"`. -/
theorem categorize_first_hit_policy (description : String) :
    categorize_transaction description =
      (firstMatchingCategory description).getD "Autre" ∧
    (description.toList.all Char.isWhitespace = true →
      categorize_transaction description = "Autre") := by
  constructor
  · rw [categorize_transaction, matchCategory_eq_find, firstMatchingCategory]
  · exact categorize_whitespace description

/-- Witness for C4 at concrete inputs: the empty and the all-blank
description fall back to `"Autre"`. -/
theorem categorize_first_hit_policy_witness :
    categorize_transaction " " = "Autre" ∧
    categorize_transaction "" = "Autre" :=
  ⟨(categorize_first_hit_policy " ").2 (by decide),
   (categorize_first_hit_policy "").2 (by decide)⟩

/-- C5: keyword matching is NOT case-insensitive in the keyword-table
entries: the description is lowercased but the keywords are not, so the
uppercase entries `"LCL"` and `"CACI"` of the `"Banque"` category can
never match — the description `"LCL"`, which contains that keyword
verbatim, falls through to the fallback `"Autre"`. -/
theorem uppercase_keywords_dead :
    categorize_transaction "LCL" = "Autre" ∧
    categorize_transaction "CACI" = "Autre" ∧
    ∃ kws, ("Banque", kws) ∈ categories ∧ "LCL" ∈ kws ∧ "CACI" ∈ kws := by
  refine ⟨by decide, by decide,
    ⟨["LCL", "cotisation", "assurance", "CACI"], by decide, by decide,
     by decide⟩⟩

/-! ## Helper lemmas and claim theorems: spending aggregation -/

lemma filter_expense_cat (l : List BTxn) (c : String) :
    (l.filter (fun t => t.amount < 0)).filter (fun t => t.category = c) =
      l.filter (fun t => t.amount < 0 ∧ t.category = c) := by
  rw [List.filter_filter]
  apply List.filter_congr
  intro t _
  by_cases h1 : t.amount < 0 <;> by_cases h2 : t.category = c <;>
    simp [h1, h2]

/-- C6: every entry of the spending-by-category output carries the sum of
the absolute amounts of exactly the strictly negative transactions of its
category (amounts ≥ 0 contribute nothing), the output is sorted
descending by summed amount, and an input with no expenses gives the
empty result. -/
theorem spending_by_category_totals (dfs : List BDf) :
    (∀ p ∈ get_spending_by_category dfs,
      p.2 = ((dfs.flatten.filter
          (fun t => t.amount < 0 ∧ t.category = p.1)).map
          (fun t => |t.amount|)).sum) ∧
    (get_spending_by_category dfs).Pairwise (fun p q => q.2 ≤ p.2) ∧
    (dfs.flatten.filter (fun t => t.amount < 0) = [] →
      get_spending_by_category dfs = []) := by
  refine ⟨?_, ?_, ?_⟩
  · intro p hp
    unfold get_spending_by_category at hp
    by_cases hguard : (dfs.isEmpty || dfs.all List.isEmpty) = true
    · rw [if_pos hguard] at hp
      exact absurd hp (List.not_mem_nil p)
    · rw [if_neg hguard, List.mem_mergeSort] at hp
      obtain ⟨c, hc, rfl⟩ := List.mem_map.mp hp
      show _ = _
      rw [← filter_expense_cat]
  · unfold get_spending_by_category
    by_cases hguard : (dfs.isEmpty || dfs.all List.isEmpty) = true
    · rw [if_pos hguard]
      exact List.Pairwise.nil
    · rw [if_neg hguard]
      have hs := @List.sorted_mergeSort (String × ℚ)
        (fun p q => decide (q.2 ≤ p.2))
        (fun a b c h1 h2 => by
          rw [decide_eq_true_eq] at h1 h2 ⊢
          exact le_trans h2 h1)
        (fun a b => by
          rcases le_total a.2 b.2 with h | h <;> simp [h])
        (((dfs.flatten.filter (fun t => t.amount < 0)).map
            (fun t => t.category)).dedup.map (fun c =>
          (c, (((dfs.flatten.filter (fun t => t.amount < 0)).filter
                (fun t => t.category = c)).map (fun t => |t.amount|)).sum)))
      exact hs.imp (fun h => of_decide_eq_true h)
  · intro hnil
    unfold get_spending_by_category
    by_cases hguard : (dfs.isEmpty || dfs.all List.isEmpty) = true
    · rw [if_pos hguard]
    · rw [if_neg hguard]
      simp only [hnil]
      simp

/-- Witness for C6: one batch holding expenses of −50 (Courses) and −70
(Transport) plus an income of +30 (Courses); the Courses entry sums to
50, ignoring the +30. -/
theorem spending_by_category_totals_witness :
    ((("Courses" : String), (50 : ℚ)).2 =
      (((([[⟨0, -50, "Courses", RawVal.num 0⟩,
            ⟨0, 30, "Courses", RawVal.num 0⟩,
            ⟨0, -70, "Transport", RawVal.num 0⟩]] :
          List BDf).flatten.filter
            (fun t => t.amount < 0 ∧ t.category = ("Courses", (50:ℚ)).1)).map
        (fun t => |t.amount|)).sum)) :=
  (spending_by_category_totals
    [[⟨0, -50, "Courses", RawVal.num 0⟩,
      ⟨0, 30, "Courses", RawVal.num 0⟩,
      ⟨0, -70, "Transport", RawVal.num 0⟩]]).1 ("Courses", 50)
    (by
      simp [get_spending_by_category, List.dedup, List.mergeSort]
      norm_num)

/-! ## Helper lemmas and claim theorems: archival round trip -/

lemma forall₂_map_self {α β : Type} (R : α → β → Prop) (g : α → β)
    (l : List α) (h : ∀ x, R x (g x)) : List.Forall₂ R l (l.map g) := by
  induction l with
  | nil => exact .nil
  | cons x xs ih => exact .cons (h x) ih

/-- C7: saving any collection with at least one record succeeds, and
loading the saved file reproduces `date`, `amount`, `description` and
`category` of every record exactly, while optional fields that were
absent come back as their fixed defaults. -/
theorem parquet_round_trip (dfs : List (List PRow))
    (hne : dfs.flatten ≠ []) :
    ∃ f, save_transactions_to_parquet dfs = some f ∧
      List.Forall₂ RoundTrips dfs.flatten
        (load_transactions_from_parquet f) := by
  refine ⟨⟨dfs.flatten⟩, ?_, ?_⟩
  · unfold save_transactions_to_parquet
    rw [if_neg (by rw [flatten_guard_false dfs hne]; simp)]
  · exact forall₂_map_self _ _ _ (fun r =>
      ⟨rfl, rfl, rfl, rfl,
       fun h => by simp [load_transactions_from_parquet, h],
       fun h => by simp [load_transactions_from_parquet, h],
       fun h => by simp [load_transactions_from_parquet, h],
       fun h => by simp [load_transactions_from_parquet, h]⟩)

/-- Witness for C7: a one-record archive (optional columns absent) is
saved and re-loaded with its canonical fields intact. -/
theorem parquet_round_trip_witness :
    ∃ f, save_transactions_to_parquet
        [[⟨1704067200, -(25:ℚ)/2, "CB CARREFOUR", "Courses",
           none, none, none, none, none⟩]] = some f ∧
      List.Forall₂ RoundTrips
        ([[⟨1704067200, -(25:ℚ)/2, "CB CARREFOUR", "Courses",
            none, none, none, none, none⟩]] :
          List (List PRow)).flatten
        (load_transactions_from_parquet f) :=
  parquet_round_trip _ (by simp)

/-! ## Claim theorems: category editing -/

/-- C8 fails on the code: the edit path performs no membership check, so
an arbitrary string that is not one of the enumerated categories is
written into the store. -/
theorem category_edit_unvalidated :
    update_transaction_category_in_dfs "t1" "NOT_A_CATEGORY"
      [[⟨"t1", "Courses"⟩]] = [[⟨"t1", "NOT_A_CATEGORY"⟩]] ∧
    "NOT_A_CATEGORY" ∉ AVAILABLE_CATEGORIES := by
  exact ⟨by decide, by decide⟩

/-- C8 as amended: the category-edit operation validates nothing — for
every store containing the target transaction id and every new-category
string whatsoever, the edit stores that string as the transaction's
category. -/
theorem category_edit_applies_any (transaction_id new_category : String) :
    ∀ dfs : List (List ERow),
      (∃ df ∈ dfs, ∃ r ∈ df, r.id = transaction_id) →
      ∃ df ∈ update_transaction_category_in_dfs transaction_id new_category
          dfs, (⟨transaction_id, new_category⟩ : ERow) ∈ df
  | [], h => by
    obtain ⟨df, hdf, -⟩ := h
    exact absurd hdf (List.not_mem_nil df)
  | df :: rest, h => by
    unfold update_transaction_category_in_dfs
    by_cases hany : df.any (fun r => r.id = transaction_id) = true
    · rw [if_pos hany]
      obtain ⟨r, hr, hrid⟩ := List.any_eq_true.mp hany
      rw [decide_eq_true_eq] at hrid
      refine ⟨_, List.mem_cons_self _ _, List.mem_map.mpr ⟨r, hr, ?_⟩⟩
      rw [if_pos hrid, hrid]
    · rw [if_neg hany]
      obtain ⟨df0, hdf0, r, hr, hrid⟩ := h
      rcases List.mem_cons.mp hdf0 with rfl | hdf0rest
      · exact absurd (List.any_eq_true.mpr ⟨r, hr, decide_eq_true hrid⟩) hany
      · obtain ⟨df1, hdf1, hmem⟩ :=
          category_edit_applies_any transaction_id new_category rest
            ⟨df0, hdf0rest, r, hr, hrid⟩
        exact ⟨df1, List.mem_cons_of_mem _ hdf1, hmem⟩

/-- Witness for the amended C8: editing transaction `t1` to the
out-of-set string `"PLOP"` stores `"PLOP"`. -/
theorem category_edit_applies_any_witness :
    ∃ df ∈ update_transaction_category_in_dfs "t1" "PLOP"
        [[⟨"t1", "Courses"⟩]], (⟨"t1", "PLOP"⟩ : ERow) ∈ df :=
  category_edit_applies_any "t1" "PLOP" [[⟨"t1", "Courses"⟩]]
    ⟨[⟨"t1", "Courses"⟩], by simp, ⟨"t1", "Courses"⟩, by simp, rfl⟩

/-! ## Claim theorems: parser error policy -/

/-- C10: the bank-statement parsers are total and collapse every failure
to the empty batch: a decoder error gives `[]`, a document with no
accounts gives `[]`, the OFC variant behaves exactly like the OFX one,
and a successful parse of a statement with no transactions is the same
empty value — so emptiness is the only failure signal a caller can
observe. -/
theorem parse_failure_yields_empty :
    (∀ e, parse_ofx (Except.error e) = []) ∧
    (∀ parsed, parse_ofc parsed = parse_ofx parsed) ∧
    (∀ doc : OfxDocument, doc.accounts = [] →
      parse_ofx (Except.ok doc) = []) ∧
    (∀ acct : OfxAccount, acct.statement.transactions = [] →
      parse_ofx (Except.ok ⟨[acct]⟩) = []) := by
  refine ⟨fun e => rfl, fun parsed => rfl, ?_, ?_⟩
  · intro doc h
    simp [parse_ofx, h]
  · intro acct h
    simp [parse_ofx, h]

/-- Witness for C10 at concrete inputs: a failed decode, an account-less
document and an empty statement all yield the empty batch. -/
theorem parse_failure_yields_empty_witness :
    parse_ofx (Except.error "not an OFX payload") = [] ∧
    parse_ofx (Except.ok ⟨[]⟩) = [] ∧
    parse_ofx (Except.ok ⟨[⟨"ACC1", "checking", ⟨[], 200, none⟩⟩]⟩) = [] :=
  ⟨parse_failure_yields_empty.1 "not an OFX payload",
   parse_failure_yields_empty.2.2.1 ⟨[]⟩ rfl,
   parse_failure_yields_empty.2.2.2 ⟨"ACC1", "checking", ⟨[], 200, none⟩⟩ rfl⟩

end BudgetDashboard
